import Mathlib

/-!
Verification development for the hexapod-visualizer repository.

The Python sources are shallowly embedded:
- the line decoder of src/main.py (HexapodParser.parse_line) as a
  deterministic character-list matcher mirroring the regular expression,
- the bounded queue policy of src/visualizer.py
  (HexapodVisualizer._serial_reader_thread) as a pure list operation,
- the state aggregator src/visualizer.py (HexapodState.update_leg) as a
  pure record update with the wall clock passed explicitly,
- the joint-chain computation of src/visualizer.py
  (HexapodVisualizer._draw_legs, lines 306-337) as real-valued functions,
- the link-length validation of src/config_loader.py
  (LegConfig.validate_link_lengths) as a function into Except.

Numeric telemetry values are modelled by rationals (Python floats hold the
decimal tokens of the wire format; none of the verified claims depends on
binary rounding), joint-chain geometry by real numbers.
-/

namespace Hexapod

/-! ## Data model

LegConfiguration mirrors config_loader.LegConfiguration (name, position,
rotation); LegData mirrors main.LegData. -/

structure LegConfiguration where
  name : String
  position : ℚ × ℚ × ℚ
  rotation : ℚ
deriving DecidableEq

structure LegData where
  leg_number : ℕ
  timestamp : ℕ
  body_xyz : ℚ × ℚ × ℚ
  leg_xyz : ℚ × ℚ × ℚ
  leg_angles : ℚ × ℚ × ℚ
  leg_config : Option LegConfiguration
deriving DecidableEq

/-! ## Bounded queue with drop-oldest policy

Models the producer side of src/visualizer.py lines 533-542: put_nowait on
a queue.Queue of capacity cap; on queue.Full the oldest element is removed
by get_nowait and the new element is enqueued. The queue content is the
list of records in arrival order (head = oldest). -/

def enqueueDrop (cap : ℕ) (q : List α) (x : α) : List α :=
  if q.length < cap then q ++ [x] else q.tail ++ [x]

/-! ## State aggregator

HexapodState of src/visualizer.py lines 21-34. The Python dataclass holds
one wall-clock timestamp field plus three dicts keyed by leg number; the
dicts are modelled as functions into Option. update_leg sets the (single,
global) timestamp to time.time, modelled by the explicit argument now. -/

structure HexState where
  timestamp : ℚ
  legPositions : ℕ → Option (ℚ × ℚ × ℚ)
  legTargets : ℕ → Option (ℚ × ℚ × ℚ)
  legAngles : ℕ → Option (ℚ × ℚ × ℚ)

/-- Initial HexapodState: timestamp 0.0 and empty dicts. -/
def initState : HexState :=
  { timestamp := 0
    legPositions := fun _ => none
    legTargets := fun _ => none
    legAngles := fun _ => none }

/-- HexapodState.update_leg (src/visualizer.py lines 29-34); now is the
value of time.time at the call. -/
def updateLeg (now : ℚ) (d : LegData) (s : HexState) : HexState :=
  { timestamp := now
    legPositions := fun i => if i = d.leg_number then some d.body_xyz else s.legPositions i
    legTargets := fun i => if i = d.leg_number then some d.leg_xyz else s.legTargets i
    legAngles := fun i => if i = d.leg_number then some d.leg_angles else s.legAngles i }

/-- Observable surface of the state: the three telemetry maps. These are
the only components ever read back (by _draw_legs and _update_plot); the
timestamp field is written by update_leg but never read. -/
def observedState (s : HexState) :
    (ℕ → Option (ℚ × ℚ × ℚ)) × (ℕ → Option (ℚ × ℚ × ℚ)) × (ℕ → Option (ℚ × ℚ × ℚ)) :=
  (s.legPositions, s.legTargets, s.legAngles)

/-! ## Link-length validation (src/config_loader.py lines 81-93)

LegConfig.validate_link_lengths: None passes through; a list whose length
is not 2 or 3 raises; any value below or equal to 0 raises; a 2-element
list is normalized by prepending a 0 coxa length after the checks. An
Except.error models a raised ValueError with its message. -/

def validateLinkLengths (v : Option (List ℚ)) : Except String (Option (List ℚ)) :=
  match v with
  | none => .ok none
  | some l =>
    if l.length ≠ 2 ∧ l.length ≠ 3 then
      .error "link_lengths must have 2 or 3 values: [femur, tibia] or [coxa, femur, tibia]"
    else if l.any (fun x => x ≤ 0) then
      .error "link_lengths values must be positive"
    else if l.length = 2 then
      .ok (some (0 :: l))
    else
      .ok (some l)

/-- Normalization applied again at draw time (src/visualizer.py lines
299-304): a 2-element list is read as femur and tibia with coxa length 0,
otherwise the first three entries are coxa, femur, tibia. -/
def drawNormalize (ll : List ℚ) : ℚ × ℚ × ℚ :=
  match ll with
  | [f, t] => (0, f, t)
  | c :: f :: t :: _ => (c, f, t)
  | _ => (0, 0, 0)

/-! ## Joint-chain computation (src/visualizer.py lines 306-337)

Per-leg geometry as used by _draw_legs: attachment position (attach_pos),
yaw rotation (rot), normalized link lengths, joint angle offsets. The
float arithmetic of the source is modelled over the reals. -/

structure LegGeom where
  position : ℝ × ℝ × ℝ
  rotation : ℝ
  coxaLen : ℝ
  femurLen : ℝ
  tibiaLen : ℝ
  offsets : ℝ × ℝ × ℝ

/-- Transcription of the joint-chain block of _draw_legs (src/visualizer.py
lines 306-337): effective angles, horizontal direction after coxa yaw, and
the three segment endpoints (coxa_end, femur_end, tibia_end). -/
noncomputable def legChainCode (g : LegGeom) (a : ℝ × ℝ × ℝ) :
    (ℝ × ℝ × ℝ) × (ℝ × ℝ × ℝ) × (ℝ × ℝ × ℝ) :=
  let coxa_angle := a.1 - g.offsets.1
  let femur_angle := a.2.1 - g.offsets.2.1
  let tibia_angle := a.2.2 - g.offsets.2.2
  let base_x := g.position.1
  let base_y := g.position.2.1
  let base_z := g.position.2.2
  let cosr := Real.cos g.rotation
  let sinr := Real.sin g.rotation
  let cosc := Real.cos coxa_angle
  let sinc := Real.sin coxa_angle
  let dir_x := cosr * cosc - sinr * sinc
  let dir_y := cosr * sinc + sinr * cosc
  let coxa_end := (base_x + dir_x * g.coxaLen, base_y + dir_y * g.coxaLen, base_z)
  let femur_dx := g.femurLen * Real.cos femur_angle * dir_x
  let femur_dy := g.femurLen * Real.cos femur_angle * dir_y
  let femur_dz := g.femurLen * Real.sin femur_angle
  let femur_end := (coxa_end.1 + femur_dx, coxa_end.2.1 + femur_dy, coxa_end.2.2 + femur_dz)
  let total_pitch := femur_angle + tibia_angle
  let tibia_dx := g.tibiaLen * Real.cos total_pitch * dir_x
  let tibia_dy := g.tibiaLen * Real.cos total_pitch * dir_y
  let tibia_dz := g.tibiaLen * Real.sin total_pitch
  let tibia_end := (femur_end.1 + tibia_dx, femur_end.2.1 + tibia_dy, femur_end.2.2 + tibia_dz)
  (coxa_end, femur_end, tibia_end)

/-- Modelled from the specification wording (spec 4.2, steps 1-5), to be
compared with legChainCode: effective angle = raw minus offset; horizontal
unit direction obtained by rotating the yaw direction by the effective coxa
angle; each later segment adds its length times the cosine of the
cumulative pitch horizontally along that direction and its length times the
sine of the cumulative pitch vertically. -/
noncomputable def legChainSpec (g : LegGeom) (a : ℝ × ℝ × ℝ) :
    (ℝ × ℝ × ℝ) × (ℝ × ℝ × ℝ) × (ℝ × ℝ × ℝ) :=
  let coxaEff := a.1 - g.offsets.1
  let femurEff := a.2.1 - g.offsets.2.1
  let tibiaEff := a.2.2 - g.offsets.2.2
  let yaw := g.rotation
  let dir : ℝ × ℝ :=
    (Real.cos yaw * Real.cos coxaEff - Real.sin yaw * Real.sin coxaEff,
     Real.cos yaw * Real.sin coxaEff + Real.sin yaw * Real.cos coxaEff)
  let addStep (p : ℝ × ℝ × ℝ) (h v : ℝ) : ℝ × ℝ × ℝ :=
    (p.1 + dir.1 * h, p.2.1 + dir.2 * h, p.2.2 + v)
  let coxaEnd := addStep g.position g.coxaLen 0
  let femurEnd := addStep coxaEnd (g.femurLen * Real.cos femurEff) (g.femurLen * Real.sin femurEff)
  let tibiaEnd := addStep femurEnd (g.tibiaLen * Real.cos (femurEff + tibiaEff))
      (g.tibiaLen * Real.sin (femurEff + tibiaEff))
  (coxaEnd, femurEnd, tibiaEnd)

/-! ## Line decoder (src/main.py lines 36-93)

HexapodParser.parse_line strips the line, anchors the regular expression

  I \(\d+\) wbc: \((\d+)\)Leg (\d+) IK: BodyXYZ\((num), (num), (num)\) ->
  LegXYZ\((num), (num), (num)\) -> LegAng\((num), (num), (num)\)

with num = [-+]?\d*\.?\d+ at the start of the stripped line (re.match, a
prefix match), and converts the captured groups with int and float inside
a try block whose except clause prints an error and returns None.

The matcher below is a deterministic transcription. On this pattern greedy
matching with backtracking coincides with maximal munch because every
numeric group is followed by a delimiter that is neither a digit nor a dot:
a digit run is always closed by the delimiter, and the fractional branch of
num (digits, dot, digits) falls back to the integer branch exactly when no
digit follows the dot, which is also what the backtracking engine does
(\.? gives up its dot). The digit class of the pattern is modelled as the
ASCII digits 0-9: the wire format is ASCII, and although re also accepts
the other Unicode decimal digits, int and float convert those exactly as
they convert ASCII digit runs, so no verified property depends on them. -/

/-- Code points of the characters stripped by str.strip with no argument:
exactly those c with c.isspace() true in CPython 3.11 (the ASCII controls
9-13, the separators 1c-1f, space, NEL 85, NBSP a0, and the Unicode
space-category characters). -/
def pySpaceCodes : List ℕ :=
  [0x09, 0x0a, 0x0b, 0x0c, 0x0d, 0x1c, 0x1d, 0x1e, 0x1f, 0x20, 0x85, 0xa0,
   0x1680, 0x2000, 0x2001, 0x2002, 0x2003, 0x2004, 0x2005, 0x2006, 0x2007,
   0x2008, 0x2009, 0x200a, 0x2028, 0x2029, 0x202f, 0x205f, 0x3000]

/-- Whitespace as stripped by str.strip. -/
def isSpaceChar (c : Char) : Bool :=
  pySpaceCodes.contains c.toNat

/-- Removal of trailing whitespace. -/
def stripRight (cs : List Char) : List Char :=
  (cs.reverse.dropWhile isSpaceChar).reverse

/-- Model of str.strip: remove leading and trailing whitespace. -/
def pyStrip (cs : List Char) : List Char :=
  stripRight (cs.dropWhile isSpaceChar)

/-- Match an exact literal, returning the remainder of the input. -/
def lit : List Char → List Char → Option (List Char)
  | [], cs => some cs
  | _ :: _, [] => none
  | p :: ps, c :: cs => if c = p then lit ps cs else none

/-- Match a nonempty run of digits, the pattern fragment of one or more
digit characters, returning the captured token and the remainder. -/
def digitsTok (cs : List Char) : Option (List Char × List Char) :=
  let t := cs.takeWhile Char.isDigit
  if t.isEmpty then none else some (t, cs.dropWhile Char.isDigit)

/-- Split one optional leading sign character off the input. -/
def signSplit (cs : List Char) : List Char × List Char :=
  match cs with
  | c :: rest => if c = '+' ∨ c = '-' then ([c], rest) else ([], cs)
  | [] => ([], [])

/-- Match the signed-decimal group num: optional sign, optional integer
digits, optional dot followed by mandatory digits; when a dot is present
but not followed by a digit the dot is not consumed (the backtracking
fallback of the optional-dot subpattern). -/
def numTok (cs : List Char) : Option (List Char × List Char) :=
  let sgn := signSplit cs
  let d1 := sgn.2.takeWhile Char.isDigit
  let cs2 := sgn.2.dropWhile Char.isDigit
  match cs2 with
  | '.' :: cs3 =>
    let d2 := cs3.takeWhile Char.isDigit
    if d2.isEmpty then
      if d1.isEmpty then none else some (sgn.1 ++ d1, cs2)
    else
      some (sgn.1 ++ d1 ++ '.' :: d2, cs3.dropWhile Char.isDigit)
  | _ => if d1.isEmpty then none else some (sgn.1 ++ d1, cs2)

/-- Captured groups of the pattern, as raw character tokens: the device
timestamp, the leg number, and the nine numeric fields (the leading
parenthesized digit run of the log header is matched but not captured). -/
structure MatchGroups where
  ts : List Char
  leg : List Char
  n1 : List Char
  n2 : List Char
  n3 : List Char
  n4 : List Char
  n5 : List Char
  n6 : List Char
  n7 : List Char
  n8 : List Char
  n9 : List Char
deriving DecidableEq

def segHeader : List Char := "I (".data
def segWbc : List Char := ") wbc: (".data
def segLeg : List Char := ")Leg ".data
def segIK : List Char := " IK: BodyXYZ(".data
def segComma : List Char := ", ".data
def segLegXYZ : List Char := ") -> LegXYZ(".data
def segLegAng : List Char := ") -> LegAng(".data
def segClose : List Char := ")".data

/-- Anchored prefix match of the full pattern; any remainder after the
final closing parenthesis is ignored, as re.match ignores trailing text. -/
def numTriple (cs0 : List Char) : Option ((List Char × List Char × List Char) × List Char) :=
  match numTok cs0 with
  | none => none
  | some r1 =>
  match lit segComma r1.2 with
  | none => none
  | some cs =>
  match numTok cs with
  | none => none
  | some r2 =>
  match lit segComma r2.2 with
  | none => none
  | some cs =>
  match numTok cs with
  | none => none
  | some r3 => some ((r1.1, r2.1, r3.1), r3.2)

/-- Stage one of the pattern: the literal header, the uncaptured digit
run, the literal up to the captured timestamp digits, and the literal
up to the leg digits. Returns the timestamp token and the rest of the
input (positioned at the leg digits). -/
def matchHead (cs0 : List Char) : Option (List Char × List Char) :=
  match lit segHeader cs0 with
  | none => none
  | some cs =>
  match digitsTok cs with
  | none => none
  | some r0 =>
  match lit segWbc r0.2 with
  | none => none
  | some cs =>
  match digitsTok cs with
  | none => none
  | some rts =>
  match lit segLeg rts.2 with
  | none => none
  | some cs => some (rts.1, cs)

/-- Stage two of the pattern, from the literal before BodyXYZ through the
final closing parenthesis: the three numeric triples. -/
def matchBody (cs0 : List Char) :
    Option ((List Char × List Char × List Char) × (List Char × List Char × List Char) ×
      (List Char × List Char × List Char)) :=
  match lit segIK cs0 with
  | none => none
  | some cs =>
  match numTriple cs with
  | none => none
  | some b =>
  match lit segLegXYZ b.2 with
  | none => none
  | some cs =>
  match numTriple cs with
  | none => none
  | some l =>
  match lit segLegAng l.2 with
  | none => none
  | some cs =>
  match numTriple cs with
  | none => none
  | some a =>
  match lit segClose a.2 with
  | none => none
  | some _ => some (b.1, l.1, a.1)

def matchPattern (cs0 : List Char) : Option MatchGroups :=
  match matchHead cs0 with
  | none => none
  | some rts =>
  match digitsTok rts.2 with
  | none => none
  | some rleg =>
  match matchBody rleg.2 with
  | none => none
  | some t =>
    some ⟨rts.1, rleg.1, t.1.1, t.1.2.1, t.1.2.2,
          t.2.1.1, t.2.1.2.1, t.2.1.2.2, t.2.2.1, t.2.2.2.1, t.2.2.2.2⟩

/-- Numeric value of a digit list, most significant first. -/
def digitsVal (t : List Char) : ℕ :=
  t.foldl (fun a c => 10 * a + (c.toNat - 48)) 0

/-- Default CPython limit on string-to-int conversion
(sys.get_int_max_str_digits): int raises ValueError on a decimal string of
more than this many digits, leading zeros included. -/
def intMaxStrDigits : ℕ := 4300

/-- Model of int applied to a captured group: succeeds exactly on nonempty
all-digit tokens (the only shape the digit groups can capture) of at most
intMaxStrDigits digits; a longer run raises the conversion-limit
ValueError, modelled as none. -/
def intOfTok (t : List Char) : Option ℕ :=
  if t ≠ [] ∧ t.all Char.isDigit ∧ t.length ≤ intMaxStrDigits then some (digitsVal t)
  else none

/-- Model of float applied to a captured group, restricted to plain decimal
notation: optional sign, then either digits, or an optional integer part, a
dot and an optional fractional part with at least one digit overall. The
rational value sign times (integer part plus fraction) is built with a
single Rat.divInt of integer arithmetic. -/
def floatOfTok (t : List Char) : Option ℚ :=
  let s := signSplit t
  let sgn : ℤ := if s.1 = ['-'] then -1 else 1
  let d1 := s.2.takeWhile Char.isDigit
  let t2 := s.2.dropWhile Char.isDigit
  match t2 with
  | [] => if d1.isEmpty then none else some (Rat.divInt (sgn * digitsVal d1) 1)
  | '.' :: t3 =>
    let d2 := t3.takeWhile Char.isDigit
    if (t3.dropWhile Char.isDigit).isEmpty ∧ (¬d1.isEmpty ∨ ¬d2.isEmpty) then
      some (Rat.divInt (sgn * ((digitsVal d1 : ℤ) * 10 ^ d2.length + digitsVal d2))
        (10 ^ d2.length))
    else none
  | _ => none

/-- Outcome of parse_line: a record, a silent None (empty line or no
regex match), or a reported parse failure (the except branch that prints
an error message and returns None). -/
inductive ParseOutcome where
  | ok (d : LegData)
  | silent
  | reported
deriving DecidableEq

/-- Conversion of the nine numeric groups with float, modelling the last
three float triples of the try block. -/
def convertNums (g : MatchGroups) : Option ((ℚ × ℚ × ℚ) × (ℚ × ℚ × ℚ) × (ℚ × ℚ × ℚ)) :=
  match floatOfTok g.n1 with
  | none => none
  | some x1 =>
  match floatOfTok g.n2 with
  | none => none
  | some x2 =>
  match floatOfTok g.n3 with
  | none => none
  | some x3 =>
  match floatOfTok g.n4 with
  | none => none
  | some x4 =>
  match floatOfTok g.n5 with
  | none => none
  | some x5 =>
  match floatOfTok g.n6 with
  | none => none
  | some x6 =>
  match floatOfTok g.n7 with
  | none => none
  | some x7 =>
  match floatOfTok g.n8 with
  | none => none
  | some x8 =>
  match floatOfTok g.n9 with
  | none => none
  | some x9 => some ((x1, x2, x3), (x4, x5, x6), (x7, x8, x9))

/-- Group conversion inside the try block of parse_line: int on the
timestamp and leg groups, float on the nine coordinate and angle groups,
then the leg-configuration lookup (whose ValueError is caught separately
and yields a missing leg_config, never a parse failure). A none models a
raised conversion error, caught by the except branch. -/
def convertGroups (getLeg : ℕ → Option LegConfiguration) (g : MatchGroups) :
    Option LegData :=
  match intOfTok g.ts with
  | none => none
  | some ts =>
  match intOfTok g.leg with
  | none => none
  | some leg =>
  match convertNums g with
  | none => none
  | some t => some ⟨leg, ts, t.1, t.2.1, t.2.2, getLeg leg⟩

/-- HexapodParser.parse_line (src/main.py lines 43-93) on a character
list; getLeg models HexapodConfig.get_leg_config, whose ValueError for an
unknown leg is caught and turned into a missing leg_config. -/
def parseChars (getLeg : ℕ → Option LegConfiguration) (line : List Char) : ParseOutcome :=
  let cs := pyStrip line
  if cs.isEmpty then .silent
  else
    match matchPattern cs with
    | none => .silent
    | some g =>
      match convertGroups getLeg g with
      | some d => .ok d
      | none => .reported

/-- HexapodParser.parse_line on a String input. -/
def parse_line (getLeg : ℕ → Option LegConfiguration) (line : String) : ParseOutcome :=
  parseChars getLeg line.data

/-- Leg-configuration lookup of an empty configuration. -/
def noGeo : ℕ → Option LegConfiguration := fun _ => none

/-! ## Concrete wire records

The sample line of the source comment (src/main.py line 35, also the first
test line of src/test_parser.py), split at the leg-number group so that
the group can be varied. -/

/-- Everything before the leg-number digits of the sample line. -/
def legLinePre : List Char := "I (39868) wbc: (39599638)Leg ".data

/-- Everything after the leg-number digits of the sample line. -/
def legLinePost : List Char :=
  (" IK: BodyXYZ(0.106, 0.280, -0.043) -> LegXYZ(0.230, -0.026, -0.043)" ++
   " -> LegAng(-0.112, 0.025, 0.768)").data

/-- The sample line itself, with leg number 0. -/
def goodLine : String :=
  "I (39868) wbc: (39599638)Leg 0 IK: BodyXYZ(0.106, 0.280, -0.043)" ++
  " -> LegXYZ(0.230, -0.026, -0.043) -> LegAng(-0.112, 0.025, 0.768)"

/-- The record parsed from the sample line (decimal fields as exact
rationals). -/
def goodRec : LegData :=
  { leg_number := 0
    timestamp := 39599638
    body_xyz := (mkRat 53 500, mkRat 7 25, mkRat (-43) 1000)
    leg_xyz := (mkRat 23 100, mkRat (-13) 500, mkRat (-43) 1000)
    leg_angles := (mkRat (-14) 125, mkRat 1 40, mkRat 96 125)
    leg_config := none }

/-- A record for leg 0 with all numeric fields zero. -/
def legDataZero : LegData :=
  { leg_number := 0
    timestamp := 0
    body_xyz := (0, 0, 0)
    leg_xyz := (0, 0, 0)
    leg_angles := (0, 0, 0)
    leg_config := none }

/-- A line with the full literal skeleton of the grammar but a non-numeric
first BodyXYZ field. -/
def badNumLine : String :=
  "I (1) wbc: (2)Leg 0 IK: BodyXYZ(abc, 0.280, -0.043)" ++
  " -> LegXYZ(0.230, -0.026, -0.043) -> LegAng(-0.112, 0.025, 0.768)"

/-! ## Reader thread and pipeline state (src/main.py lines 158-180 and
src/visualizer.py lines 520-548)

One producer iteration performs a blocking readline and parse. The
possible outcomes of one readline call are modelled by ReadEvent: a
decoded text line, a serial.SerialException raised by the read, or any
other exception (the ones reachable only by the except Exception handler
of the reader thread). SerialReader.read_and_parse catches the serial
exception, prints a message and returns None; every other exception
escapes to the thread body. -/

inductive ReadEvent where
  | line (s : String)
  | serialError
  | threadError

/-- SerialReader.read_and_parse (src/main.py lines 158-180) as seen from
the reader thread: ok none for a caught serial error or an unparsed line,
ok some for a parsed record, error for an exception that escapes. -/
def readParseEv (getLeg : ℕ → Option LegConfiguration) : ReadEvent → Except Unit (Option LegData)
  | .line s =>
    .ok (match parse_line getLeg s with
         | .ok d => some d
         | _ => none)
  | .serialError => .ok none
  | .threadError => .error ()

/-- Pipeline lifecycle states of the specification. -/
inductive PipeState where
  | notStarted
  | running
  | stopping
  | stopped
deriving DecidableEq

/-- One iteration of the while-loop body of _serial_reader_thread
(src/visualizer.py lines 530-542): when running, a record is enqueued into
the capacity-100 queue with the drop-oldest policy, a None outcome leaves
the loop running with the queue unchanged, and an escaping exception moves
the pipeline to stopped (the except and finally blocks of the thread). -/
def producerStep (getLeg : ℕ → Option LegConfiguration)
    (st : PipeState × List LegData) (ev : ReadEvent) : PipeState × List LegData :=
  match st.1 with
  | .running =>
    match readParseEv getLeg ev with
    | .error _ => (.stopped, st.2)
    | .ok none => (.running, st.2)
    | .ok (some d) => (.running, enqueueDrop 100 st.2 d)
  | _ => st

/-- Producer run over a finite schedule of read outcomes, starting in the
running state with an empty queue. -/
def runProducer (getLeg : ℕ → Option LegConfiguration) (evs : List ReadEvent) :
    PipeState × List LegData :=
  evs.foldl (producerStep getLeg) (.running, [])

/-! ## Chain derivation per leg (src/visualizer.py lines 221-298)

_draw_legs iterates i over range 6 and derives a joint chain exactly when
show_joints is on, the leg model has a nonempty link_lengths list, and the
state holds angles for leg i. Telemetry stored under any other leg index
is never consulted. -/

/-- Fields of the validated config_loader.LegConfig model object that
_draw_legs reads. -/
structure LegCfgModel where
  name : String
  position : ℚ × ℚ × ℚ
  rotation : ℚ
  link_lengths : Option (List ℚ)
  joint_angle_offsets : List ℚ

/-- Set of leg indices for which _draw_legs derives a joint chain, as a
list: the i in range 6 passing the link-lengths and angle checks of
src/visualizer.py lines 294-298. -/
def chainLegs (show_joints : Bool) (legs : ℕ → LegCfgModel) (st : HexState) : List ℕ :=
  if show_joints then
    (List.range 6).filter fun i =>
      (match (legs i).link_lengths with
       | some ll => !ll.isEmpty
       | none => false) && (st.legAngles i).isSome
  else []


/-! ## Shared helper lemmas -/

/-- Validation accepts a positive two-element list and prepends a zero
coxa length (src/config_loader.py lines 90-93). -/
theorem validateLinkLengths_pair (f t : ℚ) (hf : 0 < f) (ht : 0 < t) :
    validateLinkLengths (some [f, t]) = .ok (some [0, f, t]) := by
  simp [validateLinkLengths, hf.not_le, ht.not_le]

/-- Validation accepts a positive three-element list unchanged. -/
theorem validateLinkLengths_triple (a b c : ℚ) (ha : 0 < a) (hb : 0 < b) (hc : 0 < c) :
    validateLinkLengths (some [a, b, c]) = .ok (some [a, b, c]) := by
  simp [validateLinkLengths, ha.not_le, hb.not_le, hc.not_le]

/-- Literal matching consumes exactly its pattern. -/
theorem lit_self_append (p rest : List Char) : lit p (p ++ rest) = some rest := by
  induction p with
  | nil => rfl
  | cons c cs ih => simp [lit, ih]

/-- A list of elements satisfying the predicate is taken whole. -/
theorem takeWhile_eq_self_of_all {p : α → Bool} {l : List α} (h : ∀ a ∈ l, p a) :
    l.takeWhile p = l := by
  have := @List.takeWhile_append_of_pos _ p l [] h
  simpa using this

/-- A list of elements satisfying the predicate is dropped whole. -/
theorem dropWhile_eq_nil_of_all {p : α → Bool} {l : List α} (h : ∀ a ∈ l, p a) :
    l.dropWhile p = [] := by
  have := @List.dropWhile_append_of_pos _ p l [] h
  simpa using this

/-- Greedy scanning over a block of satisfying elements stops exactly at a
boundary that fails the predicate. -/
theorem takeWhile_append_stop {p : α → Bool} {ds rest : List α}
    (h1 : ∀ a ∈ ds, p a) (h2 : ∀ c, rest.head? = some c → p c = false) :
    (ds ++ rest).takeWhile p = ds ∧ (ds ++ rest).dropWhile p = rest := by
  constructor
  · rw [List.takeWhile_append_of_pos h1]
    cases rest with
    | nil => simp
    | cons c l =>
      have hc := h2 c rfl
      simp [List.takeWhile_cons, hc]
  · rw [List.dropWhile_append_of_pos h1]
    cases rest with
    | nil => rfl
    | cons c l =>
      have hc := h2 c rfl
      simp [List.dropWhile_cons, hc]

/-- Head of a cons as an equation on an optional head. -/
theorem head?_cons_eq {x c : α} {l : List α} (h : (x :: l).head? = some c) : c = x := by
  simp at h
  exact h.symm

/-- A successful digit-run match yields a nonempty all-digit token. -/
theorem digitsTok_sound {cs : List Char} {r : List Char × List Char}
    (h : digitsTok cs = some r) :
    r.1 ≠ [] ∧ ∀ x ∈ r.1, Char.isDigit x := by
  simp only [digitsTok] at h
  split at h
  · exact absurd h (by simp)
  · rename_i hne
    cases h
    refine ⟨by simpa using hne, ?_⟩
    intro x hx
    exact List.mem_takeWhile_imp hx

/-- The digit-run matcher on a digit block followed by a non-digit
boundary captures exactly the block. -/
theorem digitsTok_append {ds rest : List Char} (h1 : ds ≠ [])
    (h2 : ∀ x ∈ ds, Char.isDigit x)
    (h3 : ∀ c, rest.head? = some c → Char.isDigit c = false) :
    digitsTok (ds ++ rest) = some (ds, rest) := by
  obtain ⟨ht, hd⟩ := takeWhile_append_stop h2 h3
  simp [digitsTok, ht, hd, h1]

/-- The int conversion succeeds on every nonempty all-digit token within
the conversion limit. -/
theorem intOfTok_of_digits {t : List Char} (h1 : t ≠ [])
    (h2 : ∀ x ∈ t, Char.isDigit x) (h3 : t.length ≤ intMaxStrDigits) :
    intOfTok t = some (digitsVal t) := by
  unfold intOfTok
  rw [if_pos]
  exact ⟨h1, List.all_eq_true.mpr h2, h3⟩

/-- The int conversion raises past the conversion limit. -/
theorem intOfTok_none_of_long {t : List Char} (h : intMaxStrDigits < t.length) :
    intOfTok t = none := by
  unfold intOfTok
  rw [if_neg]
  rintro ⟨-, -, hle⟩
  exact absurd hle (not_le.mpr h)

/-- A digit is not a sign character. -/
theorem isDigit_not_sign {c : Char} (h : Char.isDigit c) : ¬(c = '+' ∨ c = '-') := by
  rintro (rfl | rfl) <;> exact absurd h (by decide)

/-- Splitting a sign off a sign-prefixed input whose remainder does not
begin with another sign recovers the two parts. -/
theorem signSplit_append {sgnl X : List Char}
    (hs : sgnl = [] ∨ sgnl = ['+'] ∨ sgnl = ['-'])
    (hX : ∀ c, X.head? = some c → ¬(c = '+' ∨ c = '-')) :
    signSplit (sgnl ++ X) = (sgnl, X) := by
  rcases hs with rfl | rfl | rfl
  · cases X with
    | nil => rfl
    | cons c l =>
      have hc := hX c rfl
      simp [signSplit, hc]
  · rfl
  · rfl

/-- The float conversion succeeds on a signed nonempty digit token. -/
theorem floatOfTok_int {sgnl d1 : List Char}
    (hs : sgnl = [] ∨ sgnl = ['+'] ∨ sgnl = ['-'])
    (h1 : d1 ≠ []) (h2 : ∀ x ∈ d1, Char.isDigit x) :
    (floatOfTok (sgnl ++ d1)).isSome := by
  have hss : signSplit (sgnl ++ d1) = (sgnl, d1) := by
    refine signSplit_append hs ?_
    intro c hc
    cases d1 with
    | nil => exact absurd hc (by simp)
    | cons d l =>
      rw [head?_cons_eq hc]
      exact isDigit_not_sign (h2 d (by simp))
  have ht := takeWhile_eq_self_of_all h2
  have hd := dropWhile_eq_nil_of_all h2
  simp only [floatOfTok, hss]
  rw [ht, hd]
  simp [h1]

/-- The float conversion succeeds on a signed decimal token with a
nonempty fractional part. -/
theorem floatOfTok_dec {sgnl d1 d2 : List Char}
    (hs : sgnl = [] ∨ sgnl = ['+'] ∨ sgnl = ['-'])
    (hd1 : ∀ x ∈ d1, Char.isDigit x) (h2ne : d2 ≠ [])
    (hd2 : ∀ x ∈ d2, Char.isDigit x) :
    (floatOfTok (sgnl ++ d1 ++ '.' :: d2)).isSome := by
  have hass : sgnl ++ d1 ++ '.' :: d2 = sgnl ++ (d1 ++ '.' :: d2) := by
    rw [List.append_assoc]
  have hss : signSplit (sgnl ++ (d1 ++ '.' :: d2)) = (sgnl, d1 ++ '.' :: d2) := by
    refine signSplit_append hs ?_
    intro c hc
    cases d1 with
    | nil =>
      rw [head?_cons_eq hc]
      decide
    | cons d l =>
      rw [head?_cons_eq hc]
      exact isDigit_not_sign (hd1 d (by simp))
  have hstop := @takeWhile_append_stop Char Char.isDigit d1 ('.' :: d2) hd1
      (fun c hc => by rw [head?_cons_eq hc]; decide)
  have ht2 := takeWhile_eq_self_of_all hd2
  have hd2e := dropWhile_eq_nil_of_all hd2
  rw [hass]
  simp only [floatOfTok, hss]
  rw [hstop.1, hstop.2]
  simp only []
  rw [ht2, hd2e]
  have hcond : ([] : List Char).isEmpty = true ∧ (¬d1.isEmpty ∨ ¬d2.isEmpty) :=
    ⟨rfl, Or.inr (by simpa using h2ne)⟩
  rw [if_pos hcond]
  rfl

/-- Every token captured by the numeric matcher converts with float. -/
theorem numTok_sound {cs : List Char} {r : List Char × List Char}
    (h : numTok cs = some r) : (floatOfTok r.1).isSome := by
  have hs : (signSplit cs).1 = [] ∨ (signSplit cs).1 = ['+'] ∨ (signSplit cs).1 = ['-'] := by
    unfold signSplit
    cases cs with
    | nil => simp
    | cons c l =>
      by_cases hc : c = '+' ∨ c = '-'
      · rcases hc with rfl | rfl <;> simp
      · simp [hc]
  have hd1 : ∀ x ∈ (signSplit cs).2.takeWhile Char.isDigit, Char.isDigit x :=
    fun _ hx => List.mem_takeWhile_imp hx
  simp only [numTok] at h
  split at h
  · rename_i cs3 heq
    split at h
    · split at h
      · exact absurd h (by simp)
      · rename_i hd2emp hd1ne
        cases h
        refine floatOfTok_int hs ?_ hd1
        simpa using hd1ne
    · rename_i hd2ne
      cases h
      refine floatOfTok_dec hs hd1 ?_ (fun _ hx => List.mem_takeWhile_imp hx)
      simpa using hd2ne
  · rename_i hnotdot
    split at h
    · exact absurd h (by simp)
    · rename_i hd1ne
      cases h
      refine floatOfTok_int hs ?_ hd1
      simpa using hd1ne

/-- All three tokens of a matched numeric triple convert with float. -/
theorem numTriple_sound {cs : List Char}
    {r : (List Char × List Char × List Char) × List Char}
    (h : numTriple cs = some r) :
    (floatOfTok r.1.1).isSome ∧ (floatOfTok r.1.2.1).isSome ∧
      (floatOfTok r.1.2.2).isSome := by
  unfold numTriple at h
  split at h
  · exact absurd h (by simp)
  · rename_i r1 h1
    split at h
    · exact absurd h (by simp)
    · rename_i cs2 h2
      split at h
      · exact absurd h (by simp)
      · rename_i r2 h3
        split at h
        · exact absurd h (by simp)
        · rename_i cs4 h4
          split at h
          · exact absurd h (by simp)
          · rename_i r3 h5
            cases h
            dsimp only
            exact ⟨numTok_sound h1, numTok_sound h3, numTok_sound h5⟩

/-- The timestamp token of a matched head stage is a nonempty digit run. -/
theorem matchHead_sound {cs : List Char} {r : List Char × List Char}
    (h : matchHead cs = some r) :
    r.1 ≠ [] ∧ ∀ x ∈ r.1, Char.isDigit x := by
  unfold matchHead at h
  split at h
  · exact absurd h (by simp)
  · rename_i cs1 h1
    split at h
    · exact absurd h (by simp)
    · rename_i r0 h2
      split at h
      · exact absurd h (by simp)
      · rename_i cs2 h3
        split at h
        · exact absurd h (by simp)
        · rename_i rts h4
          split at h
          · exact absurd h (by simp)
          · rename_i cs3 h5
            cases h
            dsimp only
            exact digitsTok_sound h4

/-- All nine tokens of a matched body stage convert with float. -/
theorem matchBody_sound {cs : List Char}
    {r : (List Char × List Char × List Char) × (List Char × List Char × List Char) ×
      (List Char × List Char × List Char)}
    (h : matchBody cs = some r) :
    ((floatOfTok r.1.1).isSome ∧ (floatOfTok r.1.2.1).isSome ∧
      (floatOfTok r.1.2.2).isSome) ∧
    ((floatOfTok r.2.1.1).isSome ∧ (floatOfTok r.2.1.2.1).isSome ∧
      (floatOfTok r.2.1.2.2).isSome) ∧
    ((floatOfTok r.2.2.1).isSome ∧ (floatOfTok r.2.2.2.1).isSome ∧
      (floatOfTok r.2.2.2.2).isSome) := by
  unfold matchBody at h
  split at h
  · exact absurd h (by simp)
  · rename_i cs1 h1
    split at h
    · exact absurd h (by simp)
    · rename_i b hb
      split at h
      · exact absurd h (by simp)
      · rename_i cs2 h2
        split at h
        · exact absurd h (by simp)
        · rename_i l hl
          split at h
          · exact absurd h (by simp)
          · rename_i cs3 h3
            split at h
            · exact absurd h (by simp)
            · rename_i a ha
              split at h
              · exact absurd h (by simp)
              · rename_i cs4 h4
                cases h
                dsimp only
                exact ⟨numTriple_sound hb, numTriple_sound hl, numTriple_sound ha⟩

/-- Numeric-group conversion succeeds whenever all nine tokens convert
with float. -/
theorem convertNums_isSome {g : MatchGroups}
    (hb : (floatOfTok g.n1).isSome ∧ (floatOfTok g.n2).isSome ∧ (floatOfTok g.n3).isSome)
    (hl : (floatOfTok g.n4).isSome ∧ (floatOfTok g.n5).isSome ∧ (floatOfTok g.n6).isSome)
    (ha : (floatOfTok g.n7).isSome ∧ (floatOfTok g.n8).isSome ∧ (floatOfTok g.n9).isSome) :
    (convertNums g).isSome := by
  obtain ⟨x1, e1⟩ := Option.isSome_iff_exists.mp hb.1
  obtain ⟨x2, e2⟩ := Option.isSome_iff_exists.mp hb.2.1
  obtain ⟨x3, e3⟩ := Option.isSome_iff_exists.mp hb.2.2
  obtain ⟨x4, e4⟩ := Option.isSome_iff_exists.mp hl.1
  obtain ⟨x5, e5⟩ := Option.isSome_iff_exists.mp hl.2.1
  obtain ⟨x6, e6⟩ := Option.isSome_iff_exists.mp hl.2.2
  obtain ⟨x7, e7⟩ := Option.isSome_iff_exists.mp ha.1
  obtain ⟨x8, e8⟩ := Option.isSome_iff_exists.mp ha.2.1
  obtain ⟨x9, e9⟩ := Option.isSome_iff_exists.mp ha.2.2
  simp [convertNums, e1, e2, e3, e4, e5, e6, e7, e8, e9]

/-- Shape of the captured groups of every full-pattern match: the two digit
groups are nonempty digit runs, and the nine numeric groups always convert
with float (float has no length limit and tolerates the token shapes the
pattern can capture); only the int conversions of the two digit groups can
still fail, through the digit-count limit. -/
theorem matchPattern_groups {cs : List Char} {g : MatchGroups}
    (h : matchPattern cs = some g) :
    (g.ts ≠ [] ∧ ∀ x ∈ g.ts, Char.isDigit x) ∧
    (g.leg ≠ [] ∧ ∀ x ∈ g.leg, Char.isDigit x) ∧
    (convertNums g).isSome := by
  unfold matchPattern at h
  split at h
  · exact absurd h (by simp)
  · rename_i rts hh
    split at h
    · exact absurd h (by simp)
    · rename_i rleg hdt
      split at h
      · exact absurd h (by simp)
      · rename_i t hbody
        cases h
        obtain ⟨hb, hl, ha⟩ := matchBody_sound hbody
        exact ⟨matchHead_sound hh, digitsTok_sound hdt, convertNums_isSome hb hl ha⟩

/-- A line on which the pattern does not match is silently skipped (also
covering the empty line). -/
theorem parse_silent_of_nomatch (getLeg : ℕ → Option LegConfiguration)
    (line : List Char) (hm : matchPattern (pyStrip line) = none) :
    parseChars getLeg line = .silent := by
  simp only [parseChars]
  split
  · rfl
  · rw [hm]

/-- On a line the pattern matches, parse reports a failure exactly when a
captured digit group exceeds the int conversion limit: float conversion of
the nine numeric groups never fails, so the reported branch is reachable
through the two int calls alone. -/
theorem parse_reported_iff (getLeg : ℕ → Option LegConfiguration)
    (line : List Char) {g : MatchGroups}
    (hm : matchPattern (pyStrip line) = some g) :
    (parseChars getLeg line = .reported ↔
      intMaxStrDigits < g.ts.length ∨ intMaxStrDigits < g.leg.length) := by
  obtain ⟨hts, hleg, hnums⟩ := matchPattern_groups hm
  obtain ⟨vals, hv⟩ := Option.isSome_iff_exists.mp hnums
  have hem : (pyStrip line).isEmpty = false := by
    cases he : (pyStrip line).isEmpty
    · rfl
    · exfalso
      have hnil : pyStrip line = [] := List.isEmpty_iff.mp he
      have hnone : matchPattern ([] : List Char) = none := rfl
      rw [hnil, hnone] at hm
      exact Option.noConfusion hm
  simp only [parseChars, hem, Bool.false_eq_true, if_false, hm]
  constructor
  · intro hrep
    by_contra hcon
    push_neg at hcon
    have h1 := intOfTok_of_digits hts.1 hts.2 hcon.1
    have h2 := intOfTok_of_digits hleg.1 hleg.2 hcon.2
    simp [convertGroups, h1, h2, hv] at hrep
  · intro hor
    have hnone : convertGroups getLeg g = none := by
      rcases hor with hlen | hlen
      · simp [convertGroups, intOfTok_none_of_long hlen]
      · cases htsv : intOfTok g.ts with
        | none => simp [convertGroups, htsv]
        | some v => simp [convertGroups, htsv, intOfTok_none_of_long hlen]
    rw [hnone]

/-- Right stripping distributes over an append whose left part ends in a
non-whitespace character. -/
theorem stripRight_append (a b : List Char)
    (h : ∀ c, a.getLast? = some c → isSpaceChar c = false) :
    stripRight (a ++ b) = a ++ stripRight b := by
  unfold stripRight
  rw [List.reverse_append, List.dropWhile_append]
  have ha : a.reverse.dropWhile isSpaceChar = a.reverse := by
    cases hr : a.reverse with
    | nil => rfl
    | cons c l =>
      have hc : a.getLast? = some c := by
        rw [List.getLast?_eq_head?_reverse, hr]
        rfl
      simp [List.dropWhile_cons, h c hc]
  split
  · rename_i hemp
    rw [ha, List.reverse_reverse]
    have hb : b.reverse.dropWhile isSpaceChar = [] := by
      simpa [List.isEmpty_iff] using hemp
    rw [hb]
    simp
  · rw [List.reverse_append, List.reverse_reverse]

/-- Stripping distributes over an append whose left part is nonempty and
bounded by non-whitespace characters. -/
theorem pyStrip_append (a b : List Char) (ha : a ≠ [])
    (h1 : ∀ c, a.head? = some c → isSpaceChar c = false)
    (h2 : ∀ c, a.getLast? = some c → isSpaceChar c = false) :
    pyStrip (a ++ b) = a ++ stripRight b := by
  unfold pyStrip
  have hdw : (a ++ b).dropWhile isSpaceChar = a ++ b := by
    cases a with
    | nil => exact absurd rfl ha
    | cons c l =>
      have hc := h1 c rfl
      simp [List.dropWhile_cons, hc]
  rw [hdw]
  exact stripRight_append a b h2

/-- A nonempty list bounded by non-whitespace characters strips to
itself. -/
theorem pyStrip_eq_self {cs : List Char} (ha : cs ≠ [])
    (h1 : ∀ c, cs.head? = some c → isSpaceChar c = false)
    (h2 : ∀ c, cs.getLast? = some c → isSpaceChar c = false) :
    pyStrip cs = cs := by
  have h := pyStrip_append cs [] ha h1 h2
  rw [List.append_nil] at h
  have h3 : stripRight ([] : List Char) = [] := rfl
  rw [h, h3, List.append_nil]

/-- Stage-one match of the sample-line prefix, for any continuation. -/
theorem matchHead_pre (X : List Char) :
    matchHead (legLinePre ++ X) = some ("39599638".data, X) := rfl

/-- Stage-two match of the sample-line tail, for any continuation. -/
theorem matchBody_post (X : List Char) :
    matchBody (legLinePost ++ X) =
      some (("0.106".data, "0.280".data, "-0.043".data),
            ("0.230".data, "-0.026".data, "-0.043".data),
            ("-0.112".data, "0.025".data, "0.768".data)) := rfl

/-- Full pattern match of the sample line with an arbitrary digit run as
the leg group and arbitrary trailing text. -/
theorem matchPattern_legLine (ds : List Char) (h1 : ds ≠ [])
    (h2 : ∀ x ∈ ds, Char.isDigit x) (X : List Char) :
    matchPattern (legLinePre ++ (ds ++ (legLinePost ++ X))) =
      some ⟨"39599638".data, ds, "0.106".data, "0.280".data, "-0.043".data,
            "0.230".data, "-0.026".data, "-0.043".data,
            "-0.112".data, "0.025".data, "0.768".data⟩ := by
  have hh := matchHead_pre (ds ++ (legLinePost ++ X))
  have hdt : digitsTok (ds ++ (legLinePost ++ X)) = some (ds, legLinePost ++ X) := by
    refine digitsTok_append h1 h2 ?_
    intro c hc
    have hhd : (legLinePost ++ X).head? = some ' ' := rfl
    rw [hhd] at hc
    injection hc with hc2
    subst hc2
    decide
  have hb := matchBody_post X
  unfold matchPattern
  rw [hh]
  dsimp only
  rw [hdt]
  dsimp only
  rw [hb]

/-- Group conversion of the sample line with an arbitrary digit run as the
leg group. -/
theorem convertGroups_legLine (getLeg : ℕ → Option LegConfiguration) (ds : List Char)
    (h1 : ds ≠ []) (h2 : ∀ x ∈ ds, Char.isDigit x) (h3 : ds.length ≤ intMaxStrDigits) :
    convertGroups getLeg
        ⟨"39599638".data, ds, "0.106".data, "0.280".data, "-0.043".data,
         "0.230".data, "-0.026".data, "-0.043".data,
         "-0.112".data, "0.025".data, "0.768".data⟩ =
      some ⟨digitsVal ds, 39599638,
            (mkRat 53 500, mkRat 7 25, mkRat (-43) 1000),
            (mkRat 23 100, mkRat (-13) 500, mkRat (-43) 1000),
            (mkRat (-14) 125, mkRat 1 40, mkRat 96 125), getLeg (digitsVal ds)⟩ := by
  have hts : intOfTok ("39599638".data) = some 39599638 := by decide
  have hleg := intOfTok_of_digits h1 h2 h3
  have hswap : convertNums
      ⟨"39599638".data, ds, "0.106".data, "0.280".data, "-0.043".data,
       "0.230".data, "-0.026".data, "-0.043".data,
       "-0.112".data, "0.025".data, "0.768".data⟩ =
      convertNums
      ⟨"39599638".data, ['0'], "0.106".data, "0.280".data, "-0.043".data,
       "0.230".data, "-0.026".data, "-0.043".data,
       "-0.112".data, "0.025".data, "0.768".data⟩ := rfl
  have h0 : convertNums
      ⟨"39599638".data, ['0'], "0.106".data, "0.280".data, "-0.043".data,
       "0.230".data, "-0.026".data, "-0.043".data,
       "-0.112".data, "0.025".data, "0.768".data⟩ =
      some ((mkRat 53 500, mkRat 7 25, mkRat (-43) 1000),
            (mkRat 23 100, mkRat (-13) 500, mkRat (-43) 1000),
            (mkRat (-14) 125, mkRat 1 40, mkRat 96 125)) := by decide
  have hnums := hswap.trans h0
  simp [convertGroups, hts, hleg, hnums]

/-- The stripped sample line with an arbitrary digit run as the leg group
is itself. -/
theorem pyStrip_legLine (ds : List Char) :
    pyStrip (legLinePre ++ (ds ++ legLinePost)) = legLinePre ++ (ds ++ legLinePost) := by
  refine pyStrip_eq_self (by simp [legLinePre]) ?_ ?_
  · intro c hc
    have hhd : (legLinePre ++ (ds ++ legLinePost)).head? = some 'I' := rfl
    rw [hhd] at hc
    injection hc with hc2
    subst hc2
    decide
  · intro c hc
    have hpost : legLinePost.getLast? = some ')' := by decide
    rw [List.getLast?_append, List.getLast?_append, hpost] at hc
    simp only [Option.or_some] at hc
    injection hc with hc2
    subst hc2
    decide

/-- Parse of the sample line with an arbitrary digit run as the leg group:
the record is produced for any leg number, with the leg-configuration
lookup applied to it. -/
theorem parseChars_legLine (getLeg : ℕ → Option LegConfiguration) (ds : List Char)
    (h1 : ds ≠ []) (h2 : ∀ x ∈ ds, Char.isDigit x) (h3 : ds.length ≤ intMaxStrDigits) :
    parseChars getLeg (legLinePre ++ (ds ++ legLinePost)) =
      .ok ⟨digitsVal ds, 39599638,
           (mkRat 53 500, mkRat 7 25, mkRat (-43) 1000),
           (mkRat 23 100, mkRat (-13) 500, mkRat (-43) 1000),
           (mkRat (-14) 125, mkRat 1 40, mkRat 96 125), getLeg (digitsVal ds)⟩ := by
  have hm := matchPattern_legLine ds h1 h2 []
  rw [List.append_nil] at hm
  have hne : (legLinePre ++ (ds ++ legLinePost)).isEmpty = false := rfl
  simp only [parseChars, pyStrip_legLine, hne, Bool.false_eq_true, if_false]
  rw [hm]
  dsimp only
  rw [convertGroups_legLine getLeg ds h1 h2 h3]

/-- Parse of the sample line with a leg digit run beyond the int
conversion limit: the pattern matches, the int conversion of the leg group
raises, and the line is reported. -/
theorem parseChars_legLine_reported (getLeg : ℕ → Option LegConfiguration)
    (ds : List Char) (h1 : ds ≠ []) (h2 : ∀ x ∈ ds, Char.isDigit x)
    (h3 : intMaxStrDigits < ds.length) :
    parseChars getLeg (legLinePre ++ (ds ++ legLinePost)) = .reported := by
  have hm := matchPattern_legLine ds h1 h2 []
  rw [List.append_nil] at hm
  have hne : (legLinePre ++ (ds ++ legLinePost)).isEmpty = false := rfl
  simp only [parseChars, pyStrip_legLine, hne, Bool.false_eq_true, if_false]
  rw [hm]
  dsimp only
  have hts : intOfTok ("39599638".data) = some 39599638 := by decide
  simp [convertGroups, hts, intOfTok_none_of_long h3]

/-! ## Claim theorems -/

/-- C1. For every leg geometry and raw angle triple the joint chain
computed by _draw_legs equals the planar-pitch formulas of the
specification, and with coxa length 0 the coxa end coincides with the
attachment point. -/
theorem legChainCode_eq_spec (g : LegGeom) (a : ℝ × ℝ × ℝ) :
    legChainCode g a = legChainSpec g a ∧
    (g.coxaLen = 0 → (legChainCode g a).1 = g.position) := by
  constructor
  · dsimp only [legChainCode, legChainSpec]
    simp only [Prod.mk.injEq]
    and_intros <;> first
    | rfl
    | ring_nf
  · intro h
    simp [legChainCode, h]

/-- C1 witness: the equality evaluated at a concrete geometry with zero
coxa length and zero angles. -/
theorem legChainCode_eq_spec_witness :
    legChainCode ⟨(1, 2, 3), 0, 0, 1, 1, (0, 0, 0)⟩ (0, 0, 0) =
      legChainSpec ⟨(1, 2, 3), 0, 0, 1, 1, (0, 0, 0)⟩ (0, 0, 0) ∧
    (legChainCode ⟨(1, 2, 3), 0, 0, 1, 1, (0, 0, 0)⟩ (0, 0, 0)).1 =
      (⟨(1, 2, 3), 0, 0, 1, 1, (0, 0, 0)⟩ : LegGeom).position :=
  ⟨(legChainCode_eq_spec _ _).1, (legChainCode_eq_spec _ _).2 rfl⟩

/-- C2. The bounded queue never blocks on enqueue: the new record always
becomes the newest entry, a full queue evicts exactly its oldest entry
keeping the survivors in order, a non-full queue is appended to, and with
capacity 3 enqueueing four records in order leaves the last three. -/
theorem queue_dropOldest {α : Type} (cap : ℕ) (_hpos : 0 < cap) (q : List α) (x : α) :
    (enqueueDrop cap q x).getLast? = some x ∧
    (q.length = cap → enqueueDrop cap q x = q.tail ++ [x]) ∧
    (q.length < cap → enqueueDrop cap q x = q ++ [x]) ∧
    (∀ a b c d : α, List.foldl (enqueueDrop 3) [] [a, b, c, d] = [b, c, d]) := by
  refine ⟨?_, ?_, ?_, fun a b c d => rfl⟩
  · unfold enqueueDrop
    split <;> simp
  · intro h
    simp [enqueueDrop, h]
  · intro h
    simp [enqueueDrop, h]

/-- C2 witness: capacity 3 with a full queue. -/
theorem queue_dropOldest_witness :
    enqueueDrop 3 [10, 20, 30] 40 = [20, 30, 40] :=
  (queue_dropOldest 3 (by decide) [10, 20, 30] 40).2.1 rfl

/-- C3 counterexample. A serial read failure while running leaves the
pipeline running, not stopped, and a later line is still read and parsed:
the code catches the SerialException inside read_and_parse and the reader
loop continues, contradicting the claimed Running to Stopped transition. -/
theorem serial_failure_not_stopped :
    (runProducer noGeo [ReadEvent.serialError]).1 = PipeState.running ∧
    (runProducer noGeo [ReadEvent.serialError]).1 ≠ PipeState.stopped ∧
    runProducer noGeo [ReadEvent.serialError, ReadEvent.line goodLine] =
      (PipeState.running, [goodRec]) := by
  decide

/-- C3 amended. A transport-level read failure is absorbed: it leaves the
producer state and queue exactly unchanged, so reading resumes with the
next iteration; only an exception that escapes read_and_parse (a
non-serial error) moves the pipeline to stopped. -/
theorem serial_failure_continues (getLeg : ℕ → Option LegConfiguration) :
    (∀ st : PipeState × List LegData, producerStep getLeg st ReadEvent.serialError = st) ∧
    (∀ pre post : List ReadEvent,
        runProducer getLeg (pre ++ ReadEvent.serialError :: post) =
          runProducer getLeg (pre ++ post)) ∧
    (∀ acc : List LegData,
        producerStep getLeg (PipeState.running, acc) ReadEvent.threadError =
          (PipeState.stopped, acc)) := by
  have hid : ∀ st : PipeState × List LegData,
      producerStep getLeg st ReadEvent.serialError = st := by
    rintro ⟨s, acc⟩
    cases s <;> rfl
  refine ⟨hid, ?_, fun acc => rfl⟩
  intro pre post
  unfold runProducer
  rw [List.foldl_append, List.foldl_append, List.foldl_cons, hid]

/-- C3 amended witness: one absorbed serial failure at the concrete start
state. -/
theorem serial_failure_continues_witness :
    producerStep noGeo (PipeState.running, []) ReadEvent.serialError =
      (PipeState.running, []) :=
  (serial_failure_continues noGeo).1 (PipeState.running, [])

/-- C4. The parser distinguishes exactly the two claimed failure modes: a
line on which the grammar does not match - a numeric field whose shape the
pattern rejects included, as in the badNumLine conjunct - yields none
silently; a line the grammar matches is a reported, dropped, non-fatal
parse failure precisely when a captured digit group (timestamp or leg)
exceeds the int string-conversion limit of CPython, the only group
conversion that can raise (float never fails on a captured token); a
reported line contributes no record and leaves the running producer loop
and its queue unchanged. -/
theorem parse_two_failure_modes :
    (∀ (getLeg : ℕ → Option LegConfiguration) (line : String),
        matchPattern (pyStrip line.data) = none → parse_line getLeg line = .silent) ∧
    (∀ (getLeg : ℕ → Option LegConfiguration) (line : String) (g : MatchGroups),
        matchPattern (pyStrip line.data) = some g →
        (parse_line getLeg line = .reported ↔
          intMaxStrDigits < g.ts.length ∨ intMaxStrDigits < g.leg.length)) ∧
    (∀ (getLeg : ℕ → Option LegConfiguration) (ds : List Char), ds ≠ [] →
        (∀ x ∈ ds, Char.isDigit x) → intMaxStrDigits < ds.length →
        parseChars getLeg (legLinePre ++ (ds ++ legLinePost)) = .reported) ∧
    (∀ (getLeg : ℕ → Option LegConfiguration) (acc : List LegData) (l : String),
        parse_line getLeg l = .reported →
        producerStep getLeg (PipeState.running, acc) (ReadEvent.line l) =
          (PipeState.running, acc)) ∧
    parse_line noGeo badNumLine = .silent ∧
    parse_line noGeo goodLine = .ok goodRec := by
  refine ⟨fun getLeg line hm => parse_silent_of_nomatch getLeg line.data hm,
          fun getLeg line g hm => parse_reported_iff getLeg line.data hm,
          parseChars_legLine_reported, ?_, by decide, by decide⟩
  intro getLeg acc l hrep
  simp [producerStep, readParseEv, hrep]

/-- C4 witness: unmatched noise is silent; the sample line with a
4301-digit leg group matches the grammar yet is reported, the digit count
exceeding the conversion limit. -/
theorem parse_two_failure_modes_witness :
    parse_line noGeo "garbage" = .silent ∧
    parseChars noGeo (legLinePre ++ (List.replicate 4301 '1' ++ legLinePost)) =
      .reported := by
  have hlen : (List.replicate 4301 '1').length = 4301 := List.length_replicate 4301 '1'
  refine ⟨parse_two_failure_modes.1 noGeo "garbage" (by decide),
          parse_two_failure_modes.2.2.1 noGeo (List.replicate 4301 '1') ?_ ?_ ?_⟩
  · intro h
    rw [h] at hlen
    exact absurd hlen (by decide)
  · intro x hx
    rw [List.eq_of_mem_replicate hx]
    decide
  · rw [hlen]
    decide

/-- C5. Merging the same record twice is idempotent: the observable
telemetry maps agree with a single merge for any wall-clock values, and
the full states agree when compared at the clock of the last merge. -/
theorem merge_idempotent (t1 t2 : ℚ) (d : LegData) (s : HexState) :
    observedState (updateLeg t2 d (updateLeg t1 d s)) = observedState (updateLeg t1 d s) ∧
    updateLeg t2 d (updateLeg t1 d s) = updateLeg t2 d s := by
  constructor
  · simp only [observedState, updateLeg, Prod.mk.injEq]
    refine ⟨?_, ?_, ?_⟩ <;> (funext i; by_cases h : i = d.leg_number <;> simp [h])
  · simp only [updateLeg, HexState.mk.injEq]
    refine ⟨trivial, ?_, ?_, ?_⟩ <;> (funext i; by_cases h : i = d.leg_number <;> simp [h])

/-- C6 counterexample. The state has one shared wall-clock timestamp, not
a per-leg marker: merging a record for leg 0 changes the timestamp that
also accounts for every other leg, so a merge does not leave the other
legs' liveness marker unchanged. -/
theorem merge_updates_shared_timestamp :
    legDataZero.leg_number = 0 ∧
    (updateLeg 1 legDataZero initState).timestamp ≠ initState.timestamp := by
  decide

/-- C6 amended. A merge overwrites only the merged leg's slot in the three
telemetry maps, leaves every other leg's stored telemetry unchanged, and
sets the single global wall-clock timestamp (shared by all legs, not
per-leg) to the current time. -/
theorem merge_frame_effect (t : ℚ) (d : LegData) (s : HexState) (j : ℕ)
    (hj : j ≠ d.leg_number) :
    (updateLeg t d s).legPositions j = s.legPositions j ∧
    (updateLeg t d s).legTargets j = s.legTargets j ∧
    (updateLeg t d s).legAngles j = s.legAngles j ∧
    (updateLeg t d s).legPositions d.leg_number = some d.body_xyz ∧
    (updateLeg t d s).legTargets d.leg_number = some d.leg_xyz ∧
    (updateLeg t d s).legAngles d.leg_number = some d.leg_angles ∧
    (updateLeg t d s).timestamp = t := by
  simp [updateLeg, hj]

/-- C6 amended witness: merging the zero record for leg 0 leaves leg 1
untouched and sets the global timestamp. -/
theorem merge_frame_effect_witness :
    (updateLeg 1 legDataZero initState).legPositions 1 = initState.legPositions 1 ∧
    (updateLeg 1 legDataZero initState).timestamp = 1 :=
  ⟨(merge_frame_effect 1 legDataZero initState 1 (by decide)).1,
   (merge_frame_effect 1 legDataZero initState 1 (by decide)).2.2.2.2.2.2⟩

/-- C7 counterexample. Not every unsigned leg value on a grammar-matching
line yields a record: with a 4301-digit leg group the line matches the
grammar, the int conversion of the group exceeds CPython's digit limit,
and the line is reported with no record produced, so that leg value never
reaches state storage. -/
theorem huge_leg_line_reported :
    parseChars noGeo (legLinePre ++ (List.replicate 4301 '1' ++ legLinePost)) =
      .reported := by
  have hlen : (List.replicate 4301 '1').length = 4301 := List.length_replicate 4301 '1'
  refine parseChars_legLine_reported noGeo (List.replicate 4301 '1') ?_ ?_ ?_
  · intro h
    rw [h] at hlen
    exact absurd hlen (by decide)
  · intro x hx
    rw [List.eq_of_mem_replicate hx]
    decide
  · rw [hlen]
    decide

/-- C7 amended. The parser performs no range check on the leg index: the
sample line with any nonempty leg digit run within the int
string-conversion limit parses to a record carrying that leg value,
including values far outside 0 to 5; a digit run beyond the limit trips
the generic int conversion error, which reports the line and applies to
digit count, not to the leg range; a merge stores a record under its leg
index whatever that index is; and chain derivation only ever covers leg
indices 0 to 5, so an out-of-range stored index is excluded without
error. -/
theorem parser_no_leg_range_check :
    (∀ (getLeg : ℕ → Option LegConfiguration) (ds : List Char), ds ≠ [] →
        (∀ x ∈ ds, Char.isDigit x) → ds.length ≤ intMaxStrDigits →
        parseChars getLeg (legLinePre ++ (ds ++ legLinePost)) =
          .ok ⟨digitsVal ds, 39599638,
               (mkRat 53 500, mkRat 7 25, mkRat (-43) 1000),
               (mkRat 23 100, mkRat (-13) 500, mkRat (-43) 1000),
               (mkRat (-14) 125, mkRat 1 40, mkRat 96 125), getLeg (digitsVal ds)⟩) ∧
    (∀ (getLeg : ℕ → Option LegConfiguration) (ds : List Char), ds ≠ [] →
        (∀ x ∈ ds, Char.isDigit x) → intMaxStrDigits < ds.length →
        parseChars getLeg (legLinePre ++ (ds ++ legLinePost)) = .reported) ∧
    (∀ (t : ℚ) (d : LegData) (s : HexState),
        (updateLeg t d s).legPositions d.leg_number = some d.body_xyz ∧
        (updateLeg t d s).legTargets d.leg_number = some d.leg_xyz ∧
        (updateLeg t d s).legAngles d.leg_number = some d.leg_angles) ∧
    (∀ (sj : Bool) (legs : ℕ → LegCfgModel) (st : HexState),
        ∀ i ∈ chainLegs sj legs st, i < 6) := by
  refine ⟨parseChars_legLine, parseChars_legLine_reported, ?_, ?_⟩
  · intro t d s
    refine ⟨?_, ?_, ?_⟩ <;> simp [updateLeg]
  · intro sj legs st i hi
    cases sj with
    | false => simp [chainLegs] at hi
    | true =>
      simp only [chainLegs, if_true, List.mem_filter, List.mem_range] at hi
      exact hi.1

/-- C7 witness: leg number 7, lying outside 0 to 5, is parsed and stored
under index 7. -/
theorem parser_no_leg_range_check_witness :
    parseChars noGeo (legLinePre ++ (['7'] ++ legLinePost)) =
      .ok ⟨7, 39599638,
           (mkRat 53 500, mkRat 7 25, mkRat (-43) 1000),
           (mkRat 23 100, mkRat (-13) 500, mkRat (-43) 1000),
           (mkRat (-14) 125, mkRat 1 40, mkRat 96 125), none⟩ :=
  parser_no_leg_range_check.1 noGeo ['7'] (by decide) (by decide) (by decide)

/-- C10. The match is a prefix match on the stripped line: the sample line
followed by arbitrary extra characters still parses to the sample record;
a single non-whitespace character other than the initial literal makes the
match fail at the anchor, yielding no record; and a line containing a full
valid record after a foreign prefix also yields no record, because the
pattern is never searched for beyond the start of the line. -/
theorem anchored_match_trailing_junk :
    (∀ junk : List Char, parseChars noGeo (goodLine.data ++ junk) = .ok goodRec) ∧
    (∀ (c : Char) (rest : List Char), isSpaceChar c = false → c ≠ 'I' →
        parseChars noGeo (c :: rest) = .silent) ∧
    parse_line noGeo ("I x " ++ goodLine) = .silent := by
  refine ⟨?_, ?_, by decide⟩
  · intro junk
    have hdata : goodLine.data = legLinePre ++ ('0' :: legLinePost) := by decide
    rw [hdata]
    have hstrip : pyStrip ((legLinePre ++ ('0' :: legLinePost)) ++ junk)
        = (legLinePre ++ ('0' :: legLinePost)) ++ stripRight junk := by
      refine pyStrip_append _ _ (by simp [legLinePre]) ?_ ?_
      · intro c hc
        have hhd : (legLinePre ++ ('0' :: legLinePost)).head? = some 'I' := rfl
        rw [hhd] at hc
        injection hc with hc2
        subst hc2
        decide
      · intro c hc
        have hlast : (legLinePre ++ ('0' :: legLinePost)).getLast? = some ')' := by decide
        rw [hlast] at hc
        injection hc with hc2
        subst hc2
        decide
    simp only [parseChars]
    rw [hstrip]
    have hassoc : (legLinePre ++ ('0' :: legLinePost)) ++ stripRight junk
        = legLinePre ++ (['0'] ++ (legLinePost ++ stripRight junk)) := by
      simp [List.append_assoc]
    rw [hassoc]
    have hne : (legLinePre ++ (['0'] ++ (legLinePost ++ stripRight junk))).isEmpty
        = false := rfl
    simp only [hne, Bool.false_eq_true, if_false]
    rw [matchPattern_legLine ['0'] (by decide) (by decide) (stripRight junk)]
    dsimp only
    rw [convertGroups_legLine noGeo ['0'] (by decide) (by decide) (by decide)]
    rfl
  · intro c rest hcs hcI
    have hstrip : pyStrip (c :: rest) = c :: stripRight rest := by
      have h := pyStrip_append [c] rest (by simp) ?_ ?_
      · simpa using h
      · intro x hx
        injection hx with hx2
        subst hx2
        exact hcs
      · intro x hx
        injection hx with hx2
        subst hx2
        exact hcs
    simp only [parseChars]
    rw [hstrip]
    have hne : (c :: stripRight rest).isEmpty = false := rfl
    simp only [hne, Bool.false_eq_true, if_false]
    have hm : matchPattern (c :: stripRight rest) = none := by
      have hlit : lit segHeader (c :: stripRight rest) = none := by
        have hseg : segHeader = 'I' :: " (".data := rfl
        rw [hseg]
        simp [lit, hcI]
      unfold matchPattern matchHead
      rw [hlit]
    rw [hm]

/-- C10 witness: one concrete trailing-junk line and one concrete
shifted-anchor line. -/
theorem anchored_match_trailing_junk_witness :
    parseChars noGeo (goodLine.data ++ " extra!".data) = .ok goodRec ∧
    parseChars noGeo ('X' :: goodLine.data) = .silent :=
  ⟨anchored_match_trailing_junk.1 (" extra!".data),
   anchored_match_trailing_junk.2.1 'X' goodLine.data (by decide) (by decide)⟩

/-- C8. Legacy two-element link-length input is normalized by prepending a
zero coxa length, three-element input is kept as given, the concrete
example normalizes as claimed, and the draw-time normalization agrees. -/
theorem legacy_two_value_normalized :
    (∀ f t : ℚ, 0 < f → 0 < t →
        validateLinkLengths (some [f, t]) = .ok (some [0, f, t])) ∧
    (∀ a b c : ℚ, 0 < a → 0 < b → 0 < c →
        validateLinkLengths (some [a, b, c]) = .ok (some [a, b, c])) ∧
    validateLinkLengths (some [mkRat 1 10, mkRat 3 20]) =
      .ok (some [0, mkRat 1 10, mkRat 3 20]) ∧
    (∀ f t : ℚ, drawNormalize [f, t] = (0, f, t)) :=
  ⟨validateLinkLengths_pair, validateLinkLengths_triple, rfl, fun _ _ => rfl⟩

/-- C8 witness: the concrete legacy input of the claim. -/
theorem legacy_two_value_normalized_witness :
    validateLinkLengths (some [mkRat 1 10, mkRat 3 20]) =
      .ok (some [0, mkRat 1 10, mkRat 3 20]) :=
  legacy_two_value_normalized.1 (mkRat 1 10) (mkRat 3 20) (by decide) (by decide)

/-- C9 counterexample. Supplying a three-element link-length list whose
coxa value is 0 raises the positivity validation error, contradicting the
claim that a zero coxa length is accepted as supplied geometry. -/
theorem explicit_zero_coxa_rejected :
    validateLinkLengths (some [0, mkRat 1 10, mkRat 3 20]) =
      .error "link_lengths values must be positive" := rfl

/-- C9 amended. A zero coxa length arises only through the legacy
two-element normalization, which inserts the 0 after the positivity check;
any explicitly supplied three-element list with coxa 0 is rejected by
validation; the solver itself treats a zero coxa length as valid geometry,
with the coxa end coinciding with the attachment point. -/
theorem zero_coxa_via_legacy_only :
    (∀ f t : ℚ, 0 < f → 0 < t →
        validateLinkLengths (some [f, t]) = .ok (some [0, f, t])) ∧
    (∀ f t : ℚ,
        validateLinkLengths (some [0, f, t]) =
          .error "link_lengths values must be positive") ∧
    (∀ (g : LegGeom) (a : ℝ × ℝ × ℝ), g.coxaLen = 0 → (legChainCode g a).1 = g.position) := by
  refine ⟨validateLinkLengths_pair, ?_, ?_⟩
  · intro _ _
    simp [validateLinkLengths]
  · intro g a h
    simp [legChainCode, h]

/-- C9 amended witness: the legacy route producing coxa 0, and the solver
on a zero-coxa geometry. -/
theorem zero_coxa_via_legacy_only_witness :
    validateLinkLengths (some [mkRat 1 10, mkRat 3 20]) =
      .ok (some [0, mkRat 1 10, mkRat 3 20]) ∧
    (legChainCode ⟨(1, 2, 3), 0, 0, 1, 1, (0, 0, 0)⟩ (0, 0, 0)).1 =
      (⟨(1, 2, 3), 0, 0, 1, 1, (0, 0, 0)⟩ : LegGeom).position :=
  ⟨zero_coxa_via_legacy_only.1 (mkRat 1 10) (mkRat 3 20) (by decide) (by decide),
   zero_coxa_via_legacy_only.2.2 _ _ rfl⟩

end Hexapod
